import Mathlib

/-!
Shallow embedding of the repository file
src/d3net/semantic-segmentation/comm.py ("NNabla Utility Code for
Communicators") and proofs about it.

Modelling conventions:
* The external framework communicator `C.MultiProcessDataParallelCommunicator`
  together with its `init()` is an external effect.  It is modelled by a value
  of type `Option CommInfo`: `none` means the construction or initialization
  raised an exception (the `except` branch of `CommunicatorWrapper.__init__`),
  `some c` means it succeeded and reported `c.size`, `c.rank`, `c.local_rank`.
* A device context `ctx` (result of `get_extension_context`) is a record with
  its `device_id` string and its `backend` list of strings, which is all the
  wrapped code reads from it.
* The Python builtins the code applies to strings are modelled by
  structurally recursive functions over the character list: `int(s)` by
  `pyInt?` (`none` when Python would raise `ValueError`), `str(i)` by
  `pyStr`, and `b.split(':')[0]` by `splitColonHead`.  A raising statement
  renders `CommunicatorWrapper.init` as `none`; likewise `ctx.backend[0]`
  on an empty backend list.
* Calls into the wrapped communicator and into a solver are observable
  effects; methods that perform them return the list of emitted `Event`s.
* Gradient tensors are opaque and identified by natural numbers.
-/

/-- Data reported by a successfully initialized multi-process communicator. -/
structure CommInfo where
  size : Nat
  rank : Nat
  local_rank : Nat
deriving DecidableEq, Repr

/-- A device extension context: the fields of the nnabla context object the
code reads or writes (`device_id`, `backend`). -/
structure Ctx where
  device_id : String
  backend : List String
deriving DecidableEq, Repr

/-- The context returned by `create_float_context`: the extension name it was
requested with and its device id. -/
structure FloatCtx where
  ext_name : String
  device_id : String
deriving DecidableEq, Repr

/-- Value of a decimal digit character. -/
def digitVal (c : Char) : Nat := c.toNat - 48

/-- Accumulating decimal parse of a digit list; `none` on a non-digit. -/
def decDigitsAux : List Char → Nat → Option Nat
  | [], acc => some acc
  | c :: cs, acc =>
      if c.isDigit then decDigitsAux cs (acc * 10 + digitVal c) else none

/-- Decimal parse of a nonempty digit list. -/
def decDigits? : List Char → Option Nat
  | [] => none
  | c :: cs => decDigitsAux (c :: cs) 0

/-- Models Python `int(s)` on the strings that occur as device ids: an
optional minus sign followed by decimal digits; `none` when Python would
raise `ValueError`. -/
def pyInt? (s : String) : Option Int :=
  match s.data with
  | [] => none
  | c :: cs =>
      if c = '-' then (decDigits? cs).map (fun n => -(n : Int))
      else (decDigits? (c :: cs)).map (fun n => (n : Int))

/-- Models Python `str(i)` on an int: decimal notation with a leading minus
sign for negatives, exactly what `Int`'s `toString` produces. -/
def pyStr (i : Int) : String := toString i

/-- Models `b.split(':')[0]`: the characters of `b` before the first colon
(Python `split` always has a first component). -/
def splitColonHead (b : String) : String :=
  String.mk (b.data.takeWhile (fun c => c ≠ ':'))

/-- Embeds `create_float_context(ctx)`:
`get_extension_context(ctx.backend[0].split(':')[0], device_id=ctx.device_id)`.
Returns `none` when `ctx.backend` is empty (Python would raise IndexError). -/
def create_float_context (ctx : Ctx) : Option FloatCtx :=
  match ctx.backend with
  | [] => none
  | b :: _ => some { ext_name := splitColonHead b, device_id := ctx.device_id }

/-- State of a `CommunicatorWrapper` object after `__init__`. -/
structure CommunicatorWrapper where
  n_procs : Nat
  rank : Nat
  local_rank : Nat
  comm : Option CommInfo
  ctx : Ctx
  ctx_float : FloatCtx
deriving DecidableEq, Repr

namespace CommunicatorWrapper

/-- Embeds `CommunicatorWrapper.__init__(self, ctx)`.  The external
communicator construction is the `env` argument (`none` = it raised).  After
choosing the multi-process or fallback field values the code executes
`ctx.device_id = str(int(ctx.device_id) + int(self.local_rank))`, stores the
mutated context, and derives `ctx_float = create_float_context(ctx)`.
Returns `none` when one of those statements would raise. -/
def init (env : Option CommInfo) (ctx : Ctx) : Option CommunicatorWrapper :=
  let fields : Nat × Nat × Nat × Option CommInfo :=
    match env with
    | some c => (c.size, c.rank, c.local_rank, some c)
    | none => (1, 0, 0, none)
  match pyInt? ctx.device_id with
  | none => none
  | some d =>
      let ctx2 : Ctx := { ctx with device_id := pyStr (d + (fields.2.2.1 : Int)) }
      match create_float_context ctx2 with
      | none => none
      | some cf =>
          some { n_procs := fields.1, rank := fields.2.1, local_rank := fields.2.2.1,
                 comm := fields.2.2.2, ctx := ctx2, ctx_float := cf }

end CommunicatorWrapper

/-- Observable effects emitted by the wrapper methods: a call to
`self.comm.all_reduce`, a call to `solver.update()`, a call to
`self.comm.barrier()`, or a call to `self.comm.all_reduce_callback`. -/
inductive Event where
  | allReduce (params : List Nat) (division : Bool) (inplace : Bool)
  | update (solverId : Nat)
  | barrier
deriving DecidableEq, Repr

/-- A solver: its identity and its parameter dictionary
(`solver.get_parameters()`), each value carrying a gradient tensor id. -/
structure Solver where
  id : Nat
  get_parameters : List (String × Nat)
deriving DecidableEq, Repr

/-- The gradient list `[x.grad for x in solver.get_parameters().values()]`. -/
def solverGrads (s : Solver) : List Nat :=
  s.get_parameters.map (fun kv => kv.2)

namespace CommunicatorWrapper

/-- Embeds `CommunicatorWrapper.all_reduce`: skip when `n_procs == 1`,
otherwise call `self.comm.all_reduce(params, division=..., inplace=...)`.
The return value is the trace of communicator calls made. -/
def all_reduce (w : CommunicatorWrapper) (params : List Nat) (division inplace : Bool) :
    List Event :=
  if w.n_procs = 1 then []
  else [Event.allReduce params division inplace]

/-- Embeds `CommunicatorWrapper.barrier`. -/
def barrier (w : CommunicatorWrapper) : List Event :=
  if w.n_procs = 1 then [] else [Event.barrier]

/-- Embeds `CommunicatorWrapper.all_reduced_solver_update(solver, division,
inplace)`: when `n_procs > 1` gather the gradients and all-reduce them, then
call `solver.update()` unconditionally. -/
def all_reduced_solver_update (w : CommunicatorWrapper) (s : Solver)
    (division inplace : Bool) : List Event :=
  (if 1 < w.n_procs then w.all_reduce (solverGrads s) division inplace else [])
    ++ [Event.update s.id]

/-- The method with its Python default arguments `division=False`,
`inplace=True`. -/
def all_reduced_solver_update_defaults (w : CommunicatorWrapper) (s : Solver) : List Event :=
  w.all_reduced_solver_update s false true

/-- Embeds `CommunicatorWrapper.all_reduced_solver_update_all(*solvers,
division, inplace)`: a for-loop over the given solvers. -/
def all_reduced_solver_update_all (w : CommunicatorWrapper) (solvers : List Solver)
    (division inplace : Bool) : List Event :=
  solvers.foldl (fun acc s => acc ++ w.all_reduced_solver_update s division inplace) []

end CommunicatorWrapper

/-- The callback object built by `self.comm.all_reduce_callback(params,
packing_size)`: it is opaque to this file, so it is modelled by the arguments
it was constructed from. -/
structure Callback where
  params : List Nat
  packing_size : Nat
deriving DecidableEq, Repr

/-- The Python default `packing_size=2 << 20`. -/
def defaultPackingSize : Nat := 2 <<< 20

/-- The gradient list `[x.grad for x in nn.get_parameters().values()]`; the
globally registered parameter dictionary is the `globalParams` argument. -/
def globalGrads (globalParams : List (String × Nat)) : List Nat :=
  globalParams.map (fun kv => kv.2)

namespace CommunicatorWrapper

/-- Embeds `CommunicatorWrapper.get_all_reduce_callback(packing_size)`:
`callback = None`; when `n_procs > 1`, `callback` becomes the communicator
callback over the global gradients and the packing size. -/
def get_all_reduce_callback (w : CommunicatorWrapper) (globalParams : List (String × Nat))
    (packing_size : Nat) : Option Callback :=
  if 1 < w.n_procs then
    some { params := globalGrads globalParams, packing_size := packing_size }
  else none

/-- The method applied with its Python default `packing_size=2 << 20`. -/
def get_all_reduce_callback_default (w : CommunicatorWrapper)
    (globalParams : List (String × Nat)) : Option Callback :=
  w.get_all_reduce_callback globalParams defaultPackingSize

end CommunicatorWrapper

/-- Numeric value of `logging.ERROR` in the Python standard library. -/
def logging_ERROR : Nat := 40

/-- Embeds the tail of `init_nnabla`: given the externally constructed device
context `ctx` (the result of `get_extension_context` on the configuration) and
the current level of the global nnabla logger, builds the
`CommunicatorWrapper` and sets the logger level to `logging.ERROR` exactly
when `comm.rank > 0`.  Returns the wrapper and the resulting logger level. -/
def init_nnabla (env : Option CommInfo) (ctx : Ctx) (loggerLevel : Nat) :
    Option (CommunicatorWrapper × Nat) :=
  match CommunicatorWrapper.init env ctx with
  | none => none
  | some w => some (w, if 0 < w.rank then logging_ERROR else loggerLevel)

/-!
Embedding of the `AttrDict` class.  A Python value reachable from an
`AttrDict` entry is either a non-dict value (opaque, numbered), a plain
`dict`, or an `AttrDict` (which carries its `_parent` chain).  An `AttrDict`
object itself is a `_parent` chain together with its ordered entry list;
`d.k` (when it reaches `AttrDict.__getattr__`) is a function from the object
state to a raised `AttributeError` message or a returned value plus the
updated state, since `__getattr__` mutates `self[key]` for dict values.
-/

/-- A Python value stored in an (attr)dict entry. -/
inductive PyVal where
  | leaf (n : Nat)
  | dict (entries : List (String × PyVal))
  | attrdict (parent : List String) (entries : List (String × PyVal))

/-- Python `key in self` / `self[key]` on an ordered dict: first entry wins
(keys of a real dict are unique, so this is exact). -/
def lookupEntry : List (String × PyVal) → String → Option PyVal
  | [], _ => none
  | (k, v) :: rest, key => if k = key then some v else lookupEntry rest key

/-- Python `self[key] = nv` on an ordered dict: replace in place when the key
exists, append otherwise. -/
def setEntry : List (String × PyVal) → String → PyVal → List (String × PyVal)
  | [], key, nv => [(key, nv)]
  | (k, v) :: rest, key, nv =>
      if k = key then (k, nv) :: rest else (k, v) :: setEntry rest key nv

/-- An apostrophe character, as a string. -/
def squote : String := String.singleton (Char.ofNat 39)

/-- The `AttributeError` message raised by `AttrDict.__getattr__`. -/
def no_attr_message (chain : List String) : String :=
  "dict (AttrDict) has no chain of attributes " ++ squote
    ++ String.intercalate "." chain ++ squote

namespace AttrDict

/-- Embeds `AttrDict.__getattr__(self, key)` for an `AttrDict` with `_parent`
chain `parent` and entries `es`.  Raising `AttributeError` is the `error`
case; otherwise the result is the returned value together with the (possibly
mutated) entry list.  `isinstance(self[key], dict)` holds both for a plain
`dict` and for an `AttrDict` (a `dict` subclass), and in both cases
`self[key] = AttrDict(self[key])` shallow-copies the items and the new
object's `_parent` becomes `self._parent + [key]`. -/
def getattr (parent : List String) (es : List (String × PyVal)) (key : String) :
    Except String (PyVal × List (String × PyVal)) :=
  match lookupEntry es key with
  | none => Except.error (no_attr_message (parent ++ [key]))
  | some (PyVal.dict sub) =>
      let nv := PyVal.attrdict (parent ++ [key]) sub
      Except.ok (nv, setEntry es key nv)
  | some (PyVal.attrdict _ sub) =>
      let nv := PyVal.attrdict (parent ++ [key]) sub
      Except.ok (nv, setEntry es key nv)
  | some (PyVal.leaf n) => Except.ok (PyVal.leaf n, es)

end AttrDict

/-- Equality of two `PyVal`s as Python `==` sees it, given that their nested
values are identical objects: a plain `dict` and an `AttrDict` with the same
items compare equal (dict equality ignores the subclass and `_parent`). -/
def pyEq : PyVal → PyVal → Prop
  | PyVal.leaf m, PyVal.leaf n => m = n
  | PyVal.dict a, PyVal.dict b => a = b
  | PyVal.dict a, PyVal.attrdict _ b => a = b
  | PyVal.attrdict _ a, PyVal.dict b => a = b
  | PyVal.attrdict _ a, PyVal.attrdict _ b => a = b
  | _, _ => False

/-!
Theorems.
-/

/-- Inversion of `CommunicatorWrapper.init`: everything a successful
construction guarantees about the resulting object. -/
theorem init_inversion (env : Option CommInfo) (ctx : Ctx) (w : CommunicatorWrapper)
    (h : CommunicatorWrapper.init env ctx = some w) :
    ∃ d, pyInt? ctx.device_id = some d ∧
      w.ctx.device_id = pyStr (d + (w.local_rank : Int)) ∧
      w.ctx.backend = ctx.backend ∧
      create_float_context w.ctx = some w.ctx_float ∧
      ((env = none ∧ w.n_procs = 1 ∧ w.rank = 0 ∧ w.local_rank = 0 ∧ w.comm = none)
        ∨ (∃ c, env = some c ∧ w.n_procs = c.size ∧ w.rank = c.rank
             ∧ w.local_rank = c.local_rank ∧ w.comm = some c)) := by
  cases env with
  | none =>
    simp only [CommunicatorWrapper.init] at h
    split at h
    next hd => exact Option.noConfusion h
    next d hd =>
      split at h
      next hc => exact Option.noConfusion h
      next cf hc =>
        injection h with hw
        subst hw
        exact ⟨d, hd, rfl, rfl, hc, Or.inl ⟨rfl, rfl, rfl, rfl, rfl⟩⟩
  | some c =>
    simp only [CommunicatorWrapper.init] at h
    split at h
    next hd => exact Option.noConfusion h
    next d hd =>
      split at h
      next hc => exact Option.noConfusion h
      next cf hc =>
        injection h with hw
        subst hw
        exact ⟨d, hd, rfl, rfl, hc, Or.inr ⟨c, rfl, rfl, rfl, rfl, rfl⟩⟩

/-- Concrete device context used by the evaluation witnesses. -/
def ctxA : Ctx := { device_id := "0", backend := ["cudnn:float"] }

/-- Concrete communicator data used by the evaluation witnesses. -/
def commA : CommInfo := { size := 4, rank := 2, local_rank := 3 }

/-- The wrapper built from `ctxA` when the communicator raises. -/
def wA0 : CommunicatorWrapper :=
  { n_procs := 1, rank := 0, local_rank := 0, comm := none,
    ctx := { device_id := "0", backend := ["cudnn:float"] },
    ctx_float := { ext_name := "cudnn", device_id := "0" } }

/-- The wrapper built from `ctxA` when the communicator reports `commA`. -/
def wA1 : CommunicatorWrapper :=
  { n_procs := 4, rank := 2, local_rank := 3, comm := some commA,
    ctx := { device_id := "3", backend := ["cudnn:float"] },
    ctx_float := { ext_name := "cudnn", device_id := "3" } }

/-- C1: if constructing or initializing the multi-process communicator raises
(`env = none`), `CommunicatorWrapper.__init__` completes in single-process
mode with `n_procs = 1`, `rank = 0`, `local_rank = 0`, `comm = None`; if it
does not raise, those fields are the communicator's `size`, `rank`,
`local_rank` and `comm` is the communicator object. -/
theorem c1_init_fallback_or_forward (env : Option CommInfo) (ctx : Ctx)
    (w : CommunicatorWrapper) (h : CommunicatorWrapper.init env ctx = some w) :
    (env = none → w.n_procs = 1 ∧ w.rank = 0 ∧ w.local_rank = 0 ∧ w.comm = none)
    ∧ (∀ c, env = some c →
        w.n_procs = c.size ∧ w.rank = c.rank ∧ w.local_rank = c.local_rank
          ∧ w.comm = some c) := by
  obtain ⟨d, _, _, _, _, hcase⟩ := init_inversion env ctx w h
  constructor
  · intro he
    rcases hcase with ⟨_, hs⟩ | ⟨c, hc, _⟩
    · exact hs
    · rw [he] at hc; exact Option.noConfusion hc
  · intro c hec
    rcases hcase with ⟨hn, _⟩ | ⟨c2, hc2, hs⟩
    · rw [hec] at hn; exact Option.noConfusion hn
    · rw [hec] at hc2
      injection hc2 with h2
      subst h2
      exact hs

/-- Witness for C1 at the concrete context `ctxA`, in both the raising and
the non-raising environment. -/
theorem c1_witness :
    (CommunicatorWrapper.init none ctxA = some wA0
      ∧ wA0.n_procs = 1 ∧ wA0.rank = 0 ∧ wA0.local_rank = 0 ∧ wA0.comm = none)
    ∧ (CommunicatorWrapper.init (some commA) ctxA = some wA1
      ∧ wA1.n_procs = commA.size ∧ wA1.rank = commA.rank
        ∧ wA1.local_rank = commA.local_rank ∧ wA1.comm = some commA) :=
  ⟨⟨by decide, (c1_init_fallback_or_forward none ctxA wA0 (by decide)).1 rfl⟩,
   ⟨by decide,
    (c1_init_fallback_or_forward (some commA) ctxA wA1 (by decide)).2 commA rfl⟩⟩

/-- C2: `all_reduce` is a no-op when `n_procs == 1` and otherwise makes
exactly one call to the wrapped communicator's `all_reduce` with the given
parameter list and division/inplace flags. -/
theorem c2_all_reduce_cases (w : CommunicatorWrapper) (params : List Nat)
    (division inplace : Bool) :
    (w.n_procs = 1 → w.all_reduce params division inplace = [])
    ∧ (w.n_procs ≠ 1 →
        w.all_reduce params division inplace
          = [Event.allReduce params division inplace]) := by
  constructor
  · intro h1; simp [CommunicatorWrapper.all_reduce, h1]
  · intro h1; simp [CommunicatorWrapper.all_reduce, h1]

/-- Witness for C2 on the single-process wrapper `wA0` and the four-process
wrapper `wA1`. -/
theorem c2_witness :
    wA0.all_reduce [5, 7] true false = []
    ∧ wA1.all_reduce [5, 7] true false = [Event.allReduce [5, 7] true false] :=
  ⟨(c2_all_reduce_cases wA0 [5, 7] true false).1 rfl,
   (c2_all_reduce_cases wA1 [5, 7] true false).2 (by decide)⟩

/-- C3: `all_reduced_solver_update` all-reduces the gradients of the solver's
parameter values exactly when `n_procs > 1`, calls `solver.update()` exactly
once in every case, and its Python defaults are `division=False`,
`inplace=True`. -/
theorem c3_solver_update (w : CommunicatorWrapper) (s : Solver)
    (division inplace : Bool) :
    w.all_reduced_solver_update s division inplace
      = (if 1 < w.n_procs
          then [Event.allReduce (solverGrads s) division inplace] else [])
        ++ [Event.update s.id]
    ∧ (w.all_reduced_solver_update s division inplace).count (Event.update s.id) = 1
    ∧ w.all_reduced_solver_update_defaults s = w.all_reduced_solver_update s false true := by
  have hmain : w.all_reduced_solver_update s division inplace
      = (if 1 < w.n_procs
          then [Event.allReduce (solverGrads s) division inplace] else [])
        ++ [Event.update s.id] := by
    by_cases hn : 1 < w.n_procs
    · have hne : w.n_procs ≠ 1 := by omega
      simp [CommunicatorWrapper.all_reduced_solver_update,
        CommunicatorWrapper.all_reduce, hn, hne]
    · simp [CommunicatorWrapper.all_reduced_solver_update, hn]
  refine ⟨hmain, ?_, rfl⟩
  rw [hmain]
  by_cases hn : 1 < w.n_procs
  · simp [hn, List.count_append]
  · simp [hn]

/-- C4: after `__init__`, the stored context's device id is the decimal
string of the original device id's integer value plus the local rank; in the
single-process fallback (`local_rank = 0`) it is numerically unchanged. -/
theorem c4_device_id_rank_adjusted (env : Option CommInfo) (ctx : Ctx)
    (w : CommunicatorWrapper) (d : Int) (hd : pyInt? ctx.device_id = some d)
    (h : CommunicatorWrapper.init env ctx = some w) :
    w.ctx.device_id = pyStr (d + (w.local_rank : Int))
    ∧ (env = none → w.local_rank = 0 ∧ w.ctx.device_id = pyStr d) := by
  obtain ⟨d2, hd2, hdev, _, _, hcase⟩ := init_inversion env ctx w h
  rw [hd] at hd2
  injection hd2 with he
  subst he
  refine ⟨hdev, fun he => ?_⟩
  rcases hcase with ⟨_, _, _, hlr, _⟩ | ⟨c, hc, _⟩
  · refine ⟨hlr, ?_⟩
    rw [hdev, hlr]
    simp
  · rw [he] at hc
    exact Option.noConfusion hc

/-- Witness for C4: with communicator `commA` (`local_rank = 3`) and original
device id "0", the stored device id is "3". -/
theorem c4_witness :
    wA1.ctx.device_id = pyStr ((0 : Int) + (wA1.local_rank : Int))
    ∧ wA1.ctx.device_id = "3" :=
  ⟨(c4_device_id_rank_adjusted (some commA) ctxA wA1 0 (by decide) (by decide)).1,
   by decide⟩

/-- C5: `get_all_reduce_callback` returns `None` exactly when
`n_procs == 1` (for any wrapper with at least one process); otherwise it
returns the communicator callback over the gradients of the globally
registered parameters and the packing size, whose default is
`2 << 20 = 2097152`. -/
theorem c5_callback (w : CommunicatorWrapper) (gp : List (String × Nat))
    (ps : Nat) (h : 1 ≤ w.n_procs) :
    (w.get_all_reduce_callback gp ps = none ↔ w.n_procs = 1)
    ∧ (1 < w.n_procs →
        w.get_all_reduce_callback gp ps
          = some { params := globalGrads gp, packing_size := ps })
    ∧ defaultPackingSize = 2097152
    ∧ w.get_all_reduce_callback_default gp
        = w.get_all_reduce_callback gp defaultPackingSize := by
  refine ⟨⟨fun hn => ?_, fun h1 => ?_⟩, fun h1 => ?_, by decide, rfl⟩
  · by_contra h1
    have h2 : 1 < w.n_procs := by omega
    simp [CommunicatorWrapper.get_all_reduce_callback, h2] at hn
  · simp [CommunicatorWrapper.get_all_reduce_callback, h1]
  · simp [CommunicatorWrapper.get_all_reduce_callback, h1]

/-- Witness for C5 on the four-process wrapper `wA1` and the single-process
wrapper would-be counterpart via the iff. -/
theorem c5_witness :
    (wA1.get_all_reduce_callback [("p", 9)] 64 = none ↔ wA1.n_procs = 1)
    ∧ wA1.get_all_reduce_callback [("p", 9)] 64
        = some { params := [9], packing_size := 64 } :=
  ⟨(c5_callback wA1 [("p", 9)] 64 (by decide)).1,
   (c5_callback wA1 [("p", 9)] 64 (by decide)).2.1 (by decide)⟩

/-- Auxiliary: a left fold that appends `f s` for each element equals the
accumulator followed by the flattened image. -/
theorem foldl_append_eq_flatten {α β : Type} (f : α → List β) (l : List α)
    (acc : List β) :
    l.foldl (fun a s => a ++ f s) acc = acc ++ (l.map f).flatten := by
  induction l generalizing acc with
  | nil => simp
  | cons x xs ih => simp [ih, List.append_assoc]

/-- C6: `all_reduced_solver_update_all` is the sequential composition of
`all_reduced_solver_update` over the given solvers, in order, with the same
division and inplace flags for each. -/
theorem c6_update_all_sequential (w : CommunicatorWrapper)
    (solvers : List Solver) (division inplace : Bool) :
    w.all_reduced_solver_update_all solvers division inplace
      = (solvers.map (fun s => w.all_reduced_solver_update s division inplace)).flatten := by
  simpa using foldl_append_eq_flatten
    (fun s => w.all_reduced_solver_update s division inplace) solvers []

/-- C7: after `__init__`, `ctx_float` pairs the first entry of the stored
context's backend list truncated at the first colon with the rank-adjusted
device id of the stored context. -/
theorem c7_ctx_float (env : Option CommInfo) (ctx : Ctx)
    (w : CommunicatorWrapper) (b : String) (bs : List String)
    (hb : ctx.backend = b :: bs)
    (h : CommunicatorWrapper.init env ctx = some w) :
    w.ctx_float.ext_name = splitColonHead b
    ∧ w.ctx_float.device_id = w.ctx.device_id
    ∧ w.ctx.backend = b :: bs := by
  obtain ⟨d, _, _, hback, hcf, _⟩ := init_inversion env ctx w h
  rw [hb] at hback
  simp only [create_float_context, hback] at hcf
  injection hcf with hv
  exact ⟨by rw [← hv], by rw [← hv], hback⟩

/-- Witness for C7 at the concrete context `ctxA` with backend entry
"cudnn:float": the float context's extension name is "cudnn". -/
theorem c7_witness :
    wA0.ctx_float.ext_name = splitColonHead "cudnn:float"
    ∧ wA0.ctx_float.device_id = wA0.ctx.device_id
    ∧ wA0.ctx_float.ext_name = "cudnn" :=
  ⟨(c7_ctx_float none ctxA wA0 "cudnn:float" [] rfl (by decide)).1,
   (c7_ctx_float none ctxA wA0 "cudnn:float" [] rfl (by decide)).2.1,
   by decide⟩

/-- C10: `init_nnabla` sets the global nnabla logger level to
`logging.ERROR` exactly when the constructed wrapper's rank is positive; on
rank 0, including the single-process fallback, the level is unchanged. -/
theorem c10_logger_level (env : Option CommInfo) (ctx : Ctx) (L : Nat)
    (w : CommunicatorWrapper) (L2 : Nat)
    (h : init_nnabla env ctx L = some (w, L2)) :
    (0 < w.rank → L2 = logging_ERROR)
    ∧ (w.rank = 0 → L2 = L)
    ∧ (env = none → w.rank = 0 ∧ L2 = L) := by
  unfold init_nnabla at h
  cases hw : CommunicatorWrapper.init env ctx with
  | none => rw [hw] at h; exact Option.noConfusion h
  | some w2 =>
    rw [hw] at h
    injection h with hp
    injection hp with h1 h2
    subst h1
    obtain ⟨d, _, _, _, _, hcase⟩ := init_inversion env ctx w2 hw
    refine ⟨fun hr => ?_, fun hr => ?_, fun he => ?_⟩
    · rw [← h2]; simp [hr]
    · rw [← h2]; simp [hr]
    · rcases hcase with ⟨_, _, hr, _⟩ | ⟨c, hc, _⟩
      · exact ⟨hr, by rw [← h2]; simp [hr]⟩
      · rw [he] at hc; exact Option.noConfusion hc

/-- Witness for C10: fallback leaves the level (here 20) unchanged, and a
rank-2 communicator forces `logging.ERROR = 40`. -/
theorem c10_witness :
    init_nnabla none ctxA 20 = some (wA0, 20)
    ∧ wA0.rank = 0 ∧ (20 : Nat) = 20
    ∧ init_nnabla (some commA) ctxA 20 = some (wA1, logging_ERROR) :=
  ⟨by decide,
   ((c10_logger_level none ctxA 20 wA0 20 (by decide)).2.2 rfl).1,
   ((c10_logger_level none ctxA 20 wA0 20 (by decide)).2.2 rfl).2,
   by decide⟩

/-- Auxiliary: after a dict assignment the assigned key holds the new
value. -/
theorem lookup_setEntry_self (es : List (String × PyVal)) (key : String)
    (nv : PyVal) :
    lookupEntry (setEntry es key nv) key = some nv := by
  induction es with
  | nil => simp [setEntry, lookupEntry]
  | cons kv rest ih =>
      obtain ⟨k, v⟩ := kv
      by_cases hk : k = key
      · simp [setEntry, lookupEntry, hk]
      · simp [setEntry, lookupEntry, hk, ih]

/-- Auxiliary: a dict assignment leaves every other key's value unchanged. -/
theorem lookup_setEntry_other (es : List (String × PyVal)) (key : String)
    (nv : PyVal) (k2 : String) (h2 : k2 ≠ key) :
    lookupEntry (setEntry es key nv) k2 = lookupEntry es k2 := by
  induction es with
  | nil => simp [setEntry, lookupEntry, Ne.symm h2]
  | cons kv rest ih =>
      obtain ⟨k, v⟩ := kv
      by_cases hk : k = key
      · subst hk; simp [setEntry, lookupEntry, Ne.symm h2]
      · simp [setEntry, lookupEntry, hk, ih]

/-- Auxiliary: assigning the same value to the same key twice equals doing it
once. -/
theorem setEntry_setEntry_same (es : List (String × PyVal)) (key : String)
    (nv : PyVal) :
    setEntry (setEntry es key nv) key nv = setEntry es key nv := by
  induction es with
  | nil => simp [setEntry]
  | cons kv rest ih =>
      obtain ⟨k, v⟩ := kv
      by_cases hk : k = key
      · simp [setEntry, hk]
      · simp [setEntry, hk, ih]

/-- C8: `AttrDict.__getattr__` raises `AttributeError` exactly when the key
is absent, with a message carrying the dot-joined `_parent` chain extended
with the key; when the key is present it returns the stored value (equal as
a Python value) without raising. -/
theorem c8_getattr_error_or_value (parent : List String)
    (es : List (String × PyVal)) (key : String) :
    (lookupEntry es key = none →
      AttrDict.getattr parent es key
        = Except.error (no_attr_message (parent ++ [key])))
    ∧ (∀ v, lookupEntry es key = some v →
        ∃ r es2, AttrDict.getattr parent es key = Except.ok (r, es2) ∧ pyEq r v)
    ∧ (∃ pre post, no_attr_message (parent ++ [key])
        = pre ++ String.intercalate "." (parent ++ [key]) ++ post) := by
  refine ⟨?_, ?_, "dict (AttrDict) has no chain of attributes " ++ squote, squote, rfl⟩
  · intro hn
    simp [AttrDict.getattr, hn]
  · intro v hv
    cases v with
    | leaf n =>
        exact ⟨PyVal.leaf n, es, by simp [AttrDict.getattr, hv], by simp [pyEq]⟩
    | dict sub =>
        exact ⟨PyVal.attrdict (parent ++ [key]) sub,
          setEntry es key (PyVal.attrdict (parent ++ [key]) sub),
          by simp [AttrDict.getattr, hv], by simp [pyEq]⟩
    | attrdict p2 sub =>
        exact ⟨PyVal.attrdict (parent ++ [key]) sub,
          setEntry es key (PyVal.attrdict (parent ++ [key]) sub),
          by simp [AttrDict.getattr, hv], by simp [pyEq]⟩

/-- Witness for C8 on a concrete one-entry `AttrDict` with `_parent`
chain ["cfg"]: a missing key raises with the chained message, a present key
returns its value. -/
theorem c8_witness :
    AttrDict.getattr ["cfg"] [("lr", PyVal.leaf 1)] "x"
      = Except.error (no_attr_message ["cfg", "x"])
    ∧ ∃ r es2, AttrDict.getattr ["cfg"] [("lr", PyVal.leaf 1)] "lr"
        = Except.ok (r, es2) ∧ pyEq r (PyVal.leaf 1) :=
  ⟨(c8_getattr_error_or_value ["cfg"] [("lr", PyVal.leaf 1)] "x").1 rfl,
   (c8_getattr_error_or_value ["cfg"] [("lr", PyVal.leaf 1)] "lr").2.1
     (PyVal.leaf 1) rfl⟩

/-- C9: reading a key holding a plain dict replaces it, in place, by an
`AttrDict` wrapping the same items with `_parent` extended by the key,
leaves every other key unchanged, and a second read returns that same
converted value and leaves the state fixed. -/
theorem c9_getattr_converts (parent : List String)
    (es : List (String × PyVal)) (key : String)
    (sub : List (String × PyVal))
    (hv : lookupEntry es key = some (PyVal.dict sub)) :
    AttrDict.getattr parent es key
      = Except.ok (PyVal.attrdict (parent ++ [key]) sub,
          setEntry es key (PyVal.attrdict (parent ++ [key]) sub))
    ∧ lookupEntry (setEntry es key (PyVal.attrdict (parent ++ [key]) sub)) key
        = some (PyVal.attrdict (parent ++ [key]) sub)
    ∧ (∀ k2, k2 ≠ key →
        lookupEntry (setEntry es key (PyVal.attrdict (parent ++ [key]) sub)) k2
          = lookupEntry es k2)
    ∧ AttrDict.getattr parent
        (setEntry es key (PyVal.attrdict (parent ++ [key]) sub)) key
      = Except.ok (PyVal.attrdict (parent ++ [key]) sub,
          setEntry es key (PyVal.attrdict (parent ++ [key]) sub)) := by
  refine ⟨by simp [AttrDict.getattr, hv],
    lookup_setEntry_self es key (PyVal.attrdict (parent ++ [key]) sub),
    fun k2 h2 => lookup_setEntry_other es key
      (PyVal.attrdict (parent ++ [key]) sub) k2 h2, ?_⟩
  have hl := lookup_setEntry_self es key (PyVal.attrdict (parent ++ [key]) sub)
  simp [AttrDict.getattr, hl, setEntry_setEntry_same]

/-- Witness for C9 on a concrete two-entry `AttrDict`: reading "opt"
converts its plain-dict value in place and leaves "a" untouched. -/
theorem c9_witness :
    AttrDict.getattr ["cfg"]
        [("a", PyVal.leaf 5), ("opt", PyVal.dict [("m", PyVal.leaf 2)])] "opt"
      = Except.ok (PyVal.attrdict ["cfg", "opt"] [("m", PyVal.leaf 2)],
          [("a", PyVal.leaf 5),
           ("opt", PyVal.attrdict ["cfg", "opt"] [("m", PyVal.leaf 2)])])
    ∧ lookupEntry
        [("a", PyVal.leaf 5),
         ("opt", PyVal.attrdict ["cfg", "opt"] [("m", PyVal.leaf 2)])] "a"
      = some (PyVal.leaf 5) := by
  have h := c9_getattr_converts ["cfg"]
    [("a", PyVal.leaf 5), ("opt", PyVal.dict [("m", PyVal.leaf 2)])] "opt"
    [("m", PyVal.leaf 2)] rfl
  exact ⟨h.1, (h.2.2.1 "a" (by decide)).trans rfl⟩
